import Mathlib

/-!
Verification of the RSP harmonization engine core: a shallow embedding of
the terminology mapper, gap analyzer and matrix builder modules
(src/comparison/terminology_mapper.py, src/comparison/gap_analyzer.py,
src/comparison/matrix_builder.py), together with theorems settling the
specification claims about them.

Python dictionaries with optional keys are embedded as structures with
Option-typed fields; Python sets are determinized as duplicate-free lists
in first-insertion order; dictionaries used as maps keyed by strings are
embedded as association lists whose keys are kept duplicate-free exactly
where the Python dict guarantees it.
-/

set_option maxRecDepth 10000

namespace RSP

/-- Python str.lower, embedded per character (the source compares and
normalizes strings case-insensitively with str.lower). -/
def strLower (s : String) : String :=
  ⟨s.data.map Char.toLower⟩

/-- Python str.upper, embedded per character. -/
def strUpper (s : String) : String :=
  ⟨s.data.map Char.toUpper⟩

/-- Python character slicing s[:n]. -/
def strTake (s : String) (n : Nat) : String :=
  ⟨s.data.take n⟩

/-- Python str.startswith. -/
def strStartsWith (s pfx : String) : Bool :=
  pfx.data.isPrefixOf s.data

/-- Lexicographic comparison of character lists by code point (Python
string comparison). -/
def charListLt : List Char → List Char → Bool
  | [], [] => false
  | [], _ :: _ => true
  | _ :: _, [] => false
  | a :: as, b :: bs => if a < b then true else if b < a then false else charListLt as bs

/-- Python string strict less-than. -/
def strLt (s t : String) : Bool :=
  charListLt s.data t.data

/-- Python string less-or-equal. -/
def strLe (s t : String) : Bool :=
  strLt s t || s == t

/-- Python str.replace("_", " "), used for the domain row labels. -/
def replaceUnderscores (s : String) : String :=
  ⟨s.data.map (fun c => if c = '_' then ' ' else c)⟩

/-- Unified risk level classification across all frameworks
(terminology_mapper.UnifiedLevel). -/
inductive UnifiedLevel where
  | MINIMAL
  | EMERGING
  | SIGNIFICANT
  | SEVERE
  | CRITICAL
deriving DecidableEq, Repr

/-- The integer value of each unified level (the Enum member values 1..5). -/
def UnifiedLevel.value : UnifiedLevel → Nat
  | .MINIMAL => 1
  | .EMERGING => 2
  | .SIGNIFICANT => 3
  | .SEVERE => 4
  | .CRITICAL => 5

/-- The Enum member name string of a unified level. -/
def UnifiedLevel.levelName : UnifiedLevel → String
  | .MINIMAL => "MINIMAL"
  | .EMERGING => "EMERGING"
  | .SIGNIFICANT => "SIGNIFICANT"
  | .SEVERE => "SEVERE"
  | .CRITICAL => "CRITICAL"

/-- Iteration order of the UnifiedLevel enum (definition order, which is
also ascending integer value 1..5). -/
def allUnifiedLevels : List UnifiedLevel :=
  [.MINIMAL, .EMERGING, .SIGNIFICANT, .SEVERE, .CRITICAL]

instance : BEq UnifiedLevel := ⟨fun a b => decide (a = b)⟩

instance : LawfulBEq UnifiedLevel where
  rfl := by intro a; simp [BEq.beq]
  eq_of_beq := by intro a b h; simpa [BEq.beq] using h

/-- Mapping of a lab level to the unified framework
(terminology_mapper.LevelMapping). -/
structure LevelMapping where
  lab : String
  lab_level_name : String
  lab_level_id : String
  unified_level : UnifiedLevel
  confidence : String
  notes : Option String := none
deriving DecidableEq, Repr

/-- Pre-defined curated mappings (terminology_mapper.LEVEL_MAPPINGS),
embedded as an association list in the dict insertion order. -/
def LEVEL_MAPPINGS : List (String × List LevelMapping) :=
  [ ("anthropic",
      [ { lab := "anthropic", lab_level_name := "ASL-1", lab_level_id := "asl_1",
          unified_level := .MINIMAL, confidence := "exact",
          notes := some "No meaningful catastrophic risk" },
        { lab := "anthropic", lab_level_name := "ASL-2", lab_level_id := "asl_2",
          unified_level := .EMERGING, confidence := "exact",
          notes := some "Current systems, early signs of capabilities" },
        { lab := "anthropic", lab_level_name := "ASL-3", lab_level_id := "asl_3",
          unified_level := .SIGNIFICANT, confidence := "exact",
          notes := some "Substantial increase in catastrophic misuse risk" },
        { lab := "anthropic", lab_level_name := "ASL-4", lab_level_id := "asl_4",
          unified_level := .SEVERE, confidence := "exact",
          notes := some "Could accelerate state-level threats" } ]),
    ("openai",
      [ { lab := "openai", lab_level_name := "Low", lab_level_id := "low",
          unified_level := .MINIMAL, confidence := "approximate",
          notes := some "Minimal risk, similar to widely available tools" },
        { lab := "openai", lab_level_name := "Medium", lab_level_id := "medium",
          unified_level := .EMERGING, confidence := "approximate",
          notes := some "Modest uplift, doesn\x27t fundamentally change threat landscape" },
        { lab := "openai", lab_level_name := "High", lab_level_id := "high",
          unified_level := .SIGNIFICANT, confidence := "exact",
          notes := some "Significantly increases risk in tracked categories" },
        { lab := "openai", lab_level_name := "Critical", lab_level_id := "critical",
          unified_level := .CRITICAL, confidence := "exact",
          notes := some "Could contribute to existential-level risks" } ]),
    ("deepmind",
      [ { lab := "deepmind", lab_level_name := "Below CCL", lab_level_id := "below_ccl",
          unified_level := .EMERGING, confidence := "approximate",
          notes := some "Below Critical Capability Levels" },
        { lab := "deepmind", lab_level_name := "Approaching CCL", lab_level_id := "approaching_ccl",
          unified_level := .EMERGING, confidence := "approximate",
          notes := some "Early warning, 50% of CCL thresholds" },
        { lab := "deepmind", lab_level_name := "CCL-1", lab_level_id := "ccl_1",
          unified_level := .SIGNIFICANT, confidence := "exact",
          notes := some "First Critical Capability Level" },
        { lab := "deepmind", lab_level_name := "CCL-2", lab_level_id := "ccl_2",
          unified_level := .SEVERE, confidence := "exact",
          notes := some "Second Critical Capability Level, severe risks" } ]),
    ("meta",
      [ { lab := "meta", lab_level_name := "Tier 1 - Low Risk", lab_level_id := "tier_1",
          unified_level := .MINIMAL, confidence := "approximate",
          notes := some "Minimal incremental risk" },
        { lab := "meta", lab_level_name := "Tier 2 - Moderate Risk", lab_level_id := "tier_2",
          unified_level := .EMERGING, confidence := "approximate",
          notes := some "Meaningful but manageable risk uplift" },
        { lab := "meta", lab_level_name := "Tier 3 - High Risk", lab_level_id := "tier_3",
          unified_level := .SIGNIFICANT, confidence := "exact",
          notes := some "Significant dangerous capabilities" },
        { lab := "meta", lab_level_name := "Tier 4 - Critical Risk", lab_level_id := "tier_4",
          unified_level := .CRITICAL, confidence := "exact",
          notes := some "Catastrophic or existential-level risks" } ]) ]

/-- Canonical descriptions (terminology_mapper.UNIFIED_LEVEL_DESCRIPTIONS). -/
def UNIFIED_LEVEL_DESCRIPTIONS : UnifiedLevel → String
  | .MINIMAL => "Systems posing no meaningful incremental risk beyond widely available tools"
  | .EMERGING => "Early signs of dangerous capabilities, but no significant uplift beyond existing resources"
  | .SIGNIFICANT => "Substantially increases risk of catastrophic misuse, requires robust mitigations"
  | .SEVERE => "High-risk capabilities requiring maximum safeguards and potential deployment restrictions"
  | .CRITICAL => "Capabilities that could contribute to existential risks, may require development pause"

/-- One entry of the capability_thresholds list of an extraction record;
the fields are dict keys that may be absent. -/
structure CapThreshold where
  level_name : Option String := none
  level_id : Option String := none
deriving DecidableEq, Repr

/-- One entry of the risk_domains list of an extraction record. -/
structure RiskDomain where
  domain : Option String := none
  coverage : Option String := none
deriving DecidableEq, Repr

/-- One entry of the safeguards list of an extraction record. -/
structure Safeguard where
  type : Option String := none
  name : Option String := none
deriving DecidableEq, Repr

/-- One entry of the commitments list of an extraction record. -/
structure Commitment where
  type : Option String := none
deriving DecidableEq, Repr

/-- An extraction record: a dictionary whose list-valued keys may all be
absent (absence embedded as none; the code reads them with
dict.get(key, [])). -/
structure Extraction where
  capability_thresholds : Option (List CapThreshold) := none
  risk_domains : Option (List RiskDomain) := none
  safeguards : Option (List Safeguard) := none
  commitments : Option (List Commitment) := none
deriving DecidableEq, Repr

/-- The extraction input: a dict from lab identifier to extraction record,
embedded as an association list in dict insertion order. -/
abbrev Extractions := List (String × Extraction)

/-- TerminologyMapper constructor argument handling: extractions or \x7b\x7d. -/
def initExtractions (extractions : Option Extractions) : Extractions :=
  match extractions with
  | none => []
  | some e => e

/-- The LevelMapping produced for the threshold at index i of n by
TerminologyMapper._infer_mappings (the body of its loop). -/
def inferOne (lab : String) (n i : Nat) (t : CapThreshold) : LevelMapping :=
  { lab := lab
    lab_level_name := t.level_name.getD ("Level " ++ toString (i + 1))
    lab_level_id := t.level_id.getD ("level_" ++ toString (i + 1))
    unified_level :=
      if i = 0 then .MINIMAL
      else if i = n - 1 then (if 4 ≤ n then .CRITICAL else .SEVERE)
      else if i = 1 then .EMERGING
      else .SIGNIFICANT
    confidence := "uncertain"
    notes := some "Inferred from position in framework" }

/-- The enumeration loop of TerminologyMapper._infer_mappings, carrying the
running index i. -/
def inferGo (lab : String) (n : Nat) : Nat → List CapThreshold → List LevelMapping
  | _, [] => []
  | i, t :: ts => inferOne lab n i t :: inferGo lab n (i + 1) ts

/-- TerminologyMapper._infer_mappings: infer level mappings from the
positions of the capability thresholds of the extraction. -/
def inferMappings (lab : String) (extraction : Extraction) : List LevelMapping :=
  let thresholds := extraction.capability_thresholds.getD []
  inferGo lab thresholds.length 0 thresholds

/-- The loop of TerminologyMapper._build_terminology_map that adds inferred
mappings for extraction labs whose lowercased name is not yet a key. -/
def addInferred : List (String × List LevelMapping) → Extractions →
    List (String × List LevelMapping)
  | acc, [] => acc
  | acc, (lab, extraction) :: rest =>
      let labLower := strLower lab
      if (acc.map Prod.fst).contains labLower then addInferred acc rest
      else addInferred (acc ++ [(labLower, inferMappings lab extraction)]) rest

/-- TerminologyMapper._build_terminology_map: curated mappings for the four
known labs, then position-inferred mappings for unknown extraction labs. -/
def buildTerminologyMap (extractions : Extractions) : List (String × List LevelMapping) :=
  addInferred LEVEL_MAPPINGS extractions

/-- TerminologyMap.get_lab_level: first mapping of the lab at the given
unified level. -/
def getLabLevel (termMap : List (String × List LevelMapping)) (lab : String)
    (unified : UnifiedLevel) : Option LevelMapping :=
  ((List.lookup lab termMap).getD []).find? (fun m => m.unified_level == unified)

/-- TerminologyMapper.get_unified_level: case-insensitive match of the level
name within the mapping list of the lab (looked up by lowercased key). -/
def getUnifiedLevel (termMap : List (String × List LevelMapping)) (lab levelName : String) :
    Option UnifiedLevel :=
  (((List.lookup (strLower lab) termMap).getD []).find?
    (fun m => strLower m.lab_level_name == strLower levelName)).map
    (fun m => m.unified_level)

/-- TerminologyMapper.get_equivalents: for every other lab, the level name
of its first mapping sharing the resolved unified level. -/
def getEquivalents (termMap : List (String × List LevelMapping)) (lab levelName : String) :
    List (String × String) :=
  match getUnifiedLevel termMap lab levelName with
  | none => []
  | some unified =>
      termMap.filterMap (fun p =>
        if strLower p.1 ≠ strLower lab then
          (p.2.find? (fun m => m.unified_level == unified)).map
            (fun m => (p.1, m.lab_level_name))
        else none)

/-- TerminologyMapper.get_all_labs: the keys of the terminology map. -/
def getAllLabs (termMap : List (String × List LevelMapping)) : List String :=
  termMap.map Prod.fst

/-- TerminologyMapper.get_lab_levels: all mappings for a lab, empty when the
lab is unknown. -/
def getLabLevels (termMap : List (String × List LevelMapping)) (lab : String) :
    List LevelMapping :=
  (List.lookup (strLower lab) termMap).getD []

/-- One step of Python str.title: an alphabetic character is uppercased
when the previous character is not alphabetic and lowercased otherwise. -/
def titleCaseGo : Bool → List Char → List Char
  | _, [] => []
  | prevAlpha, c :: cs =>
      (if c.isAlpha then (if prevAlpha then c.toLower else c.toUpper) else c)
        :: titleCaseGo c.isAlpha cs

/-- Python str.title. -/
def titleCase (s : String) : String :=
  ⟨titleCaseGo false s.data⟩

/-- Types of gaps (gap_analyzer.GapType); val is the str Enum value. -/
inductive GapType where
  | THRESHOLD
  | COVERAGE
  | DEFINITION
  | TERMINOLOGY
deriving DecidableEq, Repr

/-- The str value of a GapType member. -/
def GapType.val : GapType → String
  | .THRESHOLD => "threshold"
  | .COVERAGE => "coverage"
  | .DEFINITION => "definition"
  | .TERMINOLOGY => "terminology"

/-- Severity levels for gaps (gap_analyzer.GapSeverity); val is the str
Enum value, which the display sort compares lexicographically. -/
inductive GapSeverity where
  | HIGH
  | MEDIUM
  | LOW
deriving DecidableEq, Repr

/-- The str value of a GapSeverity member. -/
def GapSeverity.val : GapSeverity → String
  | .HIGH => "high"
  | .MEDIUM => "medium"
  | .LOW => "low"

/-- An example illustrating a gap (gap_analyzer.GapExample). -/
structure GapExample where
  lab : String
  quote : String
  interpretation : String
deriving DecidableEq, Repr

/-- A gap or inconsistency identified across frameworks (gap_analyzer.Gap). -/
structure Gap where
  gap_id : String
  type : GapType
  severity : GapSeverity
  title : String
  description : String
  affected_labs : List String
  domain : Option String := none
  examples : List GapExample := []
  recommendation : Option String := none
deriving DecidableEq, Repr

/-- The curated gap catalog (gap_analyzer.KNOWN_GAPS), in source order. -/
def KNOWN_GAPS : List Gap :=
  [ { gap_id := "THR-AUT-001", type := .THRESHOLD, severity := .HIGH,
      title := "Autonomy Threshold Misalignment",
      description := "Labs define \x27dangerous autonomy\x27 differently. Anthropic focuses on self-replication and resource acquisition, while OpenAI emphasizes general autonomous task completion, and DeepMind tracks ML R&D automation specifically.",
      affected_labs := ["anthropic", "openai", "deepmind", "meta"],
      domain := some "autonomy",
      examples :=
        [ ⟨"anthropic", "Cannot meaningfully self-replicate or acquire resources", "Focuses on self-preservation behaviors"⟩,
          ⟨"openai", "Significant autonomous task completion", "Broader definition of autonomy"⟩,
          ⟨"deepmind", "Can substantially accelerate AI development", "Specific to AI R&D autonomy"⟩ ],
      recommendation := some "Define standardized autonomy metrics: (1) Self-replication capability, (2) Resource acquisition, (3) Task completion without oversight, (4) AI R&D acceleration" },
    { gap_id := "THR-RND-001", type := .THRESHOLD, severity := .HIGH,
      title := "AI R&D Acceleration Threshold Divergence",
      description := "Different labs have vastly different thresholds for when AI-assisted R&D becomes concerning. Some treat any meaningful acceleration as high-risk, others focus only on autonomous research.",
      affected_labs := ["anthropic", "deepmind"],
      domain := some "ai_rd",
      examples :=
        [ ⟨"anthropic", "Can meaningfully accelerate AI development (ASL-3)", "Broad acceleration concern"⟩,
          ⟨"deepmind", "Can substantially accelerate AI development (CCL-1)", "Similar but different threshold terminology"⟩ ],
      recommendation := some "Establish quantitative metrics for AI R&D acceleration (e.g., X% reduction in development time, capability to discover novel architectures)" },
    { gap_id := "THR-CBR-001", type := .THRESHOLD, severity := .HIGH,
      title := "CBRN Uplift Definition Inconsistency",
      description := "\x27Meaningful uplift\x27 for CBRN capabilities is defined differently. Some labs compare to \x27web search baseline\x27, others to \x27non-expert baseline\x27, with unclear equivalence.",
      affected_labs := ["anthropic", "openai", "deepmind", "meta"],
      domain := some "cbrn",
      examples :=
        [ ⟨"anthropic", "No meaningful uplift beyond web search", "Web search as baseline"⟩,
          ⟨"openai", "Modest uplift, comparable to skilled search", "Skilled search as baseline"⟩,
          ⟨"deepmind", "Significantly increases ability of non-experts to cause harm", "Non-expert baseline"⟩ ],
      recommendation := some "Define standardized CBRN uplift metrics with specific baseline comparisons and quantitative uplift thresholds" },
    { gap_id := "TERM-001", type := .TERMINOLOGY, severity := .HIGH,
      title := "Risk Level Naming Inconsistency",
      description := "Labs use completely different naming conventions for risk levels, making cross-framework comparison difficult for regulators and researchers.",
      affected_labs := ["anthropic", "openai", "deepmind", "meta"],
      domain := none,
      examples :=
        [ ⟨"anthropic", "ASL-1 through ASL-4", "AI Safety Levels"⟩,
          ⟨"openai", "Low, Medium, High, Critical", "Risk-based naming"⟩,
          ⟨"deepmind", "Below CCL, CCL-1, CCL-2", "Critical Capability Levels"⟩,
          ⟨"meta", "Tier 1 through Tier 4", "Tiered system"⟩ ],
      recommendation := some "Adopt a unified 5-tier framework: Minimal, Emerging, Significant, Severe, Critical" },
    { gap_id := "COV-PER-001", type := .COVERAGE, severity := .MEDIUM,
      title := "Persuasion/Manipulation Coverage Gap",
      description := "Not all frameworks explicitly address AI persuasion and manipulation capabilities with the same rigor as other domains.",
      affected_labs := ["anthropic", "meta"],
      domain := some "persuasion",
      examples :=
        [ ⟨"anthropic", "Partial coverage of persuasion", "Not as detailed as CBRN/cyber"⟩,
          ⟨"openai", "Sophisticated persuasion campaigns (High level)", "Explicit coverage"⟩ ],
      recommendation := some "All frameworks should include explicit persuasion thresholds with metrics for influence operations" },
    { gap_id := "COV-DEC-001", type := .COVERAGE, severity := .MEDIUM,
      title := "Deception/Scheming Coverage Variance",
      description := "Only some frameworks explicitly address AI deception and scheming behaviors as a distinct risk category.",
      affected_labs := ["anthropic", "openai", "meta"],
      domain := some "deception",
      examples :=
        [ ⟨"deepmind", "Evidence of goal-directed deceptive behavior (CCL-1)", "Explicit scheming threshold"⟩,
          ⟨"anthropic", "No explicit deception category", "Covered implicitly under autonomy"⟩ ],
      recommendation := some "Add explicit deception/scheming thresholds to all frameworks" },
    { gap_id := "DEF-SEC-001", type := .DEFINITION, severity := .MEDIUM,
      title := "Security Level Definition Variance",
      description := "Security requirements at equivalent risk levels vary significantly. \x27Enhanced security\x27 means different things across frameworks.",
      affected_labs := ["anthropic", "openai", "deepmind", "meta"],
      domain := none,
      examples :=
        [ ⟨"anthropic", "Hardened infrastructure (ASL-3)", "Focus on infrastructure"⟩,
          ⟨"deepmind", "Security Level Alpha to Omega", "Explicit tiered security system"⟩,
          ⟨"meta", "Weight security (Tier 3+)", "Focus on model weights"⟩ ],
      recommendation := some "Define standardized security levels with specific technical requirements" },
    { gap_id := "THR-CYB-001", type := .THRESHOLD, severity := .MEDIUM,
      title := "Cyber Capability Threshold Ambiguity",
      description := "Thresholds for dangerous cyber capabilities vary in specificity and measurability.",
      affected_labs := ["anthropic", "openai", "deepmind", "meta"],
      domain := some "cyber",
      examples :=
        [ ⟨"anthropic", "Can discover and exploit novel vulnerabilities (ASL-3)", "Novel vulnerability focus"⟩,
          ⟨"openai", "Can discover or exploit significant vulnerabilities (High)", "Significant vs novel"⟩,
          ⟨"deepmind", "Can automate significant parts of sophisticated attacks (CCL-1)", "Automation focus"⟩ ],
      recommendation := some "Define specific cyber capability benchmarks with measurable criteria" },
    { gap_id := "DEF-PAU-001", type := .DEFINITION, severity := .HIGH,
      title := "Pause Commitment Ambiguity",
      description := "While all labs commit to pausing under extreme circumstances, the specific conditions and duration are often vague.",
      affected_labs := ["anthropic", "openai", "deepmind", "meta"],
      domain := none,
      examples :=
        [ ⟨"anthropic", "Will not train/deploy without safeguards in place", "Safeguard-gated"⟩,
          ⟨"openai", "Will not deploy Critical models without approval", "Approval-gated"⟩,
          ⟨"deepmind", "Will not deploy models exceeding CCL without mitigations", "Mitigation-gated"⟩ ],
      recommendation := some "Define clear, verifiable pause conditions with specific capability thresholds and safeguard requirements" },
    { gap_id := "TERM-002", type := .TERMINOLOGY, severity := .LOW,
      title := "Safeguard vs Mitigation Terminology",
      description := "Labs use \x27safeguards\x27, \x27mitigations\x27, and \x27controls\x27 somewhat interchangeably.",
      affected_labs := ["anthropic", "openai", "deepmind", "meta"],
      domain := none,
      examples :=
        [ ⟨"anthropic", "Required safeguards", "Uses \x27safeguards\x27"⟩,
          ⟨"deepmind", "Deployment mitigations verified", "Uses \x27mitigations\x27"⟩,
          ⟨"openai", "Safety mitigations", "Uses \x27mitigations\x27"⟩ ],
      recommendation := some "Standardize terminology: \x27Safeguards\x27 for proactive measures, \x27Mitigations\x27 for risk reduction" } ]

/-- Set insertion, determinized as append-if-new (gap_analyzer uses a
Python set; list order stands in for its iteration order). -/
def insertDomain (acc : List String) (d : String) : List String :=
  if acc.contains d then acc else acc ++ [d]

/-- The lowercased, non-empty domain names contributed by the extractions,
in iteration order (the elements added by GapAnalyzer._get_all_domains). -/
def extractedDomains (extractions : Extractions) : List String :=
  extractions.flatMap (fun p =>
    (p.2.risk_domains.getD []).filterMap (fun rd =>
      match rd.domain with
      | some d => if d = "" then none else some (strLower d)
      | none => none))

/-- GapAnalyzer._get_all_domains: the set of risk domains across all
extractions (domains that are absent or empty strings are falsy in Python
and skipped). -/
def getAllDomains (extractions : Extractions) : List String :=
  (extractedDomains extractions).foldl insertDomain []

/-- The per-lab coverage test of GapAnalyzer.find_coverage_gaps: the lab
covers the domain when some risk_domains entry matches the domain
case-insensitively and declares coverage full or partial. -/
def labCovers (extraction : Extraction) (domain : String) : Bool :=
  (extraction.risk_domains.getD []).any (fun rd =>
    (strLower (rd.domain.getD "") == strLower domain) &&
      (rd.coverage == some "full" || rd.coverage == some "partial"))

/-- The gap synthesized by GapAnalyzer.find_coverage_gaps for a domain. -/
def mkCoverageGap (domain : String) (labsMissing : List String) : Gap :=
  { gap_id := "COV-" ++ strUpper (strTake domain 3) ++ "-DYN"
    type := .COVERAGE
    severity := .MEDIUM
    title := titleCase domain ++ " Coverage Gap"
    description := "Not all frameworks address " ++ domain ++ " with equal rigor."
    affected_labs := labsMissing
    domain := some domain
    examples := []
    recommendation := some ("Ensure all frameworks explicitly address " ++ domain ++ " risk domain") }

/-- The per-domain step of GapAnalyzer.find_coverage_gaps: the gaps (zero
or one) appended for one domain. -/
def coverageGapStep (extractions : Extractions) (domain : String) : List Gap :=
  let labsCovering := (extractions.filter (fun p => labCovers p.2 domain)).map Prod.fst
  let labsMissing := (extractions.filter (fun p => !labCovers p.2 domain)).map Prod.fst
  if !labsCovering.isEmpty && !labsMissing.isEmpty && !(domain ∈ ["other"] : Bool) then
    if !(KNOWN_GAPS.any (fun g => strStartsWith g.gap_id ("COV-" ++ strUpper (strTake domain 3)))) then
      [mkCoverageGap domain labsMissing]
    else []
  else []

/-- GapAnalyzer.find_coverage_gaps: synthesize coverage gaps for domains
some labs cover and others do not. -/
def findCoverageGaps (extractions : Extractions) : List Gap :=
  (getAllDomains extractions).foldl
    (fun gaps domain => gaps ++ coverageGapStep extractions domain) []

/-- GapAnalyzer.find_threshold_gaps: scans threshold texts but never adds
to its gaps accumulator, so it returns the empty list on every input. -/
def findThresholdGaps (_extractions : Extractions) : List Gap := []

/-- GapAnalyzer.find_definition_gaps: returns the empty list. -/
def findDefinitionGaps (_extractions : Extractions) : List Gap := []

/-- The deduplication loop of GapAnalyzer.analyze_all, carrying the
seen_ids set (determinized as a list). -/
def dedupGo (seen : List String) : List Gap → List Gap
  | [] => []
  | g :: rest =>
      if seen.contains g.gap_id then dedupGo seen rest
      else g :: dedupGo (g.gap_id :: seen) rest

/-- Deduplicate gaps by gap_id, keeping the first occurrence in list order
(the final step of GapAnalyzer.analyze_all). -/
def dedupById (gaps : List Gap) : List Gap :=
  dedupGo [] gaps

/-- The gap list computed by GapAnalyzer.analyze_all from the extractions
held by the analyzer: curated gaps first, then (when extractions are non-empty, the
dict being truthy) the dynamic detectors, then deduplication by gap_id. -/
def analyzeAllGaps (extractions : Extractions) : List Gap :=
  let gaps := KNOWN_GAPS
  let gaps :=
    if extractions.isEmpty then gaps
    else gaps ++ findThresholdGaps extractions ++ findCoverageGaps extractions
      ++ findDefinitionGaps extractions
  dedupById gaps

/-- The mutable state of a GapAnalyzer instance: its extractions and the
gaps field written by analyze_all. -/
structure AnalyzerState where
  extractions : Extractions
  gaps : List Gap
deriving Repr

/-- GapAnalyzer.analyze_all as a state transformer: it resets self.gaps,
recomputes the gap list from self.extractions and returns it. -/
def analyzeAll (s : AnalyzerState) : AnalyzerState × List Gap :=
  let gaps := analyzeAllGaps s.extractions
  ({ s with gaps := gaps }, gaps)

/-- GapAnalyzer.get_gaps_by_severity. -/
def getGapsBySeverity (gaps : List Gap) (severity : GapSeverity) : List Gap :=
  gaps.filter (fun g => g.severity == severity)

/-- GapAnalyzer.get_gaps_by_type. -/
def getGapsByType (gaps : List Gap) (gapType : GapType) : List Gap :=
  gaps.filter (fun g => g.type == gapType)

/-- GapAnalyzer.get_gaps_by_domain: case-insensitive domain filter (a gap
with domain None is falsy and never matches). -/
def getGapsByDomain (gaps : List Gap) (domain : String) : List Gap :=
  gaps.filter (fun g =>
    match g.domain with
    | some d => d ≠ "" && strLower d == strLower domain
    | none => false)

/-- The sort order used by GapAnalyzer.print_gap_report: Python sorted with
key (severity.value, gap_id), i.e. lexicographic on the severity value
string, ties broken by gap_id. -/
def gapDisplayLE (g1 g2 : Gap) : Prop :=
  strLt g1.severity.val g2.severity.val = true ∨
    (g1.severity.val = g2.severity.val ∧ strLe g1.gap_id g2.gap_id = true)

instance : DecidableRel gapDisplayLE := fun g1 g2 => by
  unfold gapDisplayLE; infer_instance

/-- The display order of gaps in GapAnalyzer.print_gap_report. -/
def displaySortGaps (gaps : List Gap) : List Gap :=
  gaps.insertionSort gapDisplayLE

/-- The labs_analyzed metadata field written by GapAnalyzer.export_gaps:
the extraction keys, or the four canonical labs when the extractions dict
is falsy. -/
def labsAnalyzed (extractions : Extractions) : List String :=
  if extractions.isEmpty then ["anthropic", "openai", "deepmind", "meta"]
  else extractions.map Prod.fst

/-- The confidence glyph suffix used in matrix_builder.build_comparison_matrix
(a leading space plus the symbol; unknown confidence maps to the empty
string). -/
def confidenceGlyph (confidence : String) : String :=
  if confidence = "exact" then " ✓"
  else if confidence = "approximate" then " ~"
  else if confidence = "uncertain" then " ?"
  else ""

/-- One row of the comparison matrix: the Unified Level cell, the
Description cell, and one cell per lab column (keyed by the titled lab
name, as in the row dict of build_comparison_matrix). -/
structure CompRow where
  unified : String
  description : String
  cells : List (String × String)
deriving DecidableEq, Repr

/-- The comparison-matrix row built for one unified level. -/
def compRow (termMap : List (String × List LevelMapping)) (labs : List String)
    (unified : UnifiedLevel) : CompRow :=
  { unified := titleCase unified.levelName
    description := strTake (UNIFIED_LEVEL_DESCRIPTIONS unified) 60 ++ "..."
    cells := labs.map (fun lab =>
      (titleCase lab,
        match getLabLevel termMap lab unified with
        | some m => m.lab_level_name ++ confidenceGlyph m.confidence
        | none => "-")) }

/-- MatrixBuilder.build_comparison_matrix: one row per UnifiedLevel in enum
(ascending value) order. -/
def comparisonMatrix (extractions : Extractions) : List CompRow :=
  let termMap := buildTerminologyMap extractions
  let labs := getAllLabs termMap
  allUnifiedLevels.map (compRow termMap labs)

/-- The lab column list used by the domain-coverage, safeguard and
commitment matrices and the summary stats: extraction keys, or the four
canonical labs when the extractions dict is falsy. -/
def matrixLabs (extractions : Extractions) : List String :=
  if extractions.isEmpty then ["anthropic", "openai", "deepmind", "meta"]
  else extractions.map Prod.fst

/-- A row of one of the keyed tabular matrices: the row-label cell plus one
cell per lab column (keyed by the titled lab name). -/
structure MatrixRow where
  label : String
  cells : List (String × String)
deriving DecidableEq, Repr

/-- The standard domains always included in the domain coverage matrix. -/
def standardDomains : List String :=
  ["cbrn", "cyber", "autonomy", "persuasion", "ai_rd", "deception"]

/-- The row domains of build_domain_coverage_matrix: the union of observed
(lowercased, truthy) domains and the standard domains, sorted. -/
def coverageMatrixDomains (extractions : Extractions) : List String :=
  let allDomains := standardDomains.foldl insertDomain
    ((extractedDomains extractions).foldl insertDomain [])
  allDomains.insertionSort (fun a b => strLe a b = true)

/-- The coverage-to-symbol table of build_domain_coverage_matrix. -/
def coverageSymbol (coverage : String) : String :=
  if coverage = "full" then "●"
  else if coverage = "partial" then "◐"
  else if coverage = "none" then "○"
  else if coverage = "?" then "?"
  else "?"

/-- One cell of the domain coverage matrix: the symbol for the coverage of
the first risk_domains entry of the lab matching the domain (missing coverage
defaulting to partial), or the unknown symbol when no entry matches. -/
def coverageCellFor (extraction : Extraction) (domain : String) : String :=
  let coverage :=
    match (extraction.risk_domains.getD []).find?
        (fun rd => strLower (rd.domain.getD "") == domain) with
    | some rd => rd.coverage.getD "partial"
    | none => "?"
  coverageSymbol coverage

/-- MatrixBuilder.build_domain_coverage_matrix. -/
def domainCoverageMatrix (extractions : Extractions) : List MatrixRow :=
  (coverageMatrixDomains extractions).map (fun domain =>
    { label := replaceUnderscores (strUpper domain)
      cells := (matrixLabs extractions).map (fun lab =>
        (titleCase lab,
          coverageCellFor ((List.lookup lab extractions).getD {}) domain)) })

/-- The fixed safeguard type rows of build_safeguard_matrix. -/
def safeguardTypes : List String :=
  ["security", "deployment", "operational", "governance", "technical"]

/-- One cell of the safeguard matrix: a truncated first-name summary of the
safeguards of the lab with that type, or the absent marker. -/
def safeguardCell (extraction : Extraction) (sgType : String) : String :=
  let safeguards := (extraction.safeguards.getD []).filter
    (fun s => strLower (s.type.getD "") == sgType)
  match safeguards with
  | [] => "-"
  | s :: rest =>
      let firstName := strTake (s.name.getD "") 20
      if rest.length + 1 > 1 then
        firstName ++ "... (+" ++ toString rest.length ++ ")"
      else firstName

/-- MatrixBuilder.build_safeguard_matrix. -/
def safeguardMatrix (extractions : Extractions) : List MatrixRow :=
  safeguardTypes.map (fun sgType =>
    { label := titleCase sgType
      cells := (matrixLabs extractions).map (fun lab =>
        (titleCase lab, safeguardCell ((List.lookup lab extractions).getD {}) sgType)) })

/-- The fixed commitment type rows of build_commitment_matrix. -/
def commitmentTypes : List String :=
  ["pause", "disclosure", "cooperation", "assessment"]

/-- One cell of the commitment matrix: present or absent marker. -/
def commitmentCell (extraction : Extraction) (cType : String) : String :=
  if ((extraction.commitments.getD []).filter
      (fun c => strLower (c.type.getD "") == cType)).isEmpty
  then "-" else "✓"

/-- MatrixBuilder.build_commitment_matrix. -/
def commitmentMatrix (extractions : Extractions) : List MatrixRow :=
  commitmentTypes.map (fun cType =>
    { label := titleCase cType
      cells := (matrixLabs extractions).map (fun lab =>
        (titleCase lab, commitmentCell ((List.lookup lab extractions).getD {}) cType)) })

/-! Helper lemmas. -/

theorem foldl_append_eq_flatMap {α β : Type} (f : α → List β) :
    ∀ (l : List α) (acc : List β),
      l.foldl (fun a d => a ++ f d) acc = acc ++ l.flatMap f := by
  intro l
  induction l with
  | nil => intro acc; simp
  | cons x xs ih => intro acc; simp [List.foldl_cons, ih]

theorem nodup_insertDomain (acc : List String) (d : String) (h : acc.Nodup) :
    (insertDomain acc d).Nodup := by
  unfold insertDomain
  split
  · exact h
  · rename_i hc
    simp only [List.contains, List.elem_eq_mem, decide_eq_true_eq] at hc
    simp [List.nodup_append, h, hc]

theorem mem_insertDomain (acc : List String) (d x : String) :
    x ∈ insertDomain acc d ↔ x ∈ acc ∨ x = d := by
  unfold insertDomain
  split
  · rename_i hc
    simp only [List.contains, List.elem_eq_mem, decide_eq_true_eq] at hc
    constructor
    · exact Or.inl
    · rintro (h | rfl)
      · exact h
      · exact hc
  · simp

theorem nodup_foldl_insertDomain :
    ∀ (l : List String) (acc : List String), acc.Nodup →
      (l.foldl insertDomain acc).Nodup := by
  intro l
  induction l with
  | nil => intro acc h; simpa using h
  | cons x xs ih => intro acc h; exact ih _ (nodup_insertDomain acc x h)

theorem mem_foldl_insertDomain :
    ∀ (l : List String) (acc : List String) (x : String),
      x ∈ l.foldl insertDomain acc ↔ x ∈ acc ∨ x ∈ l := by
  intro l
  induction l with
  | nil => intro acc x; simp
  | cons y ys ih =>
      intro acc x
      simp only [List.foldl_cons, ih, mem_insertDomain, List.mem_cons]
      tauto

theorem nodup_getAllDomains (extractions : Extractions) :
    (getAllDomains extractions).Nodup :=
  nodup_foldl_insertDomain _ [] List.nodup_nil

theorem findCoverageGaps_eq_flatMap (extractions : Extractions) :
    findCoverageGaps extractions =
      (getAllDomains extractions).flatMap (coverageGapStep extractions) := by
  unfold findCoverageGaps
  simpa using foldl_append_eq_flatMap (coverageGapStep extractions) (getAllDomains extractions) []

theorem mem_coverageGapStep (extractions : Extractions) (d : String) (g : Gap)
    (h : g ∈ coverageGapStep extractions d) :
    g = mkCoverageGap d ((extractions.filter (fun p => !labCovers p.2 d)).map Prod.fst) ∧
      g.domain = some d := by
  simp only [coverageGapStep] at h
  split at h
  · split at h
    · simp only [List.mem_singleton] at h
      subst h
      exact ⟨rfl, rfl⟩
    · simp at h
  · simp at h

/-! Claim theorems. -/

/-- Claim C9: calling analyze_all twice on the same GapAnalyzer returns
gap lists equal element-by-element in the same order, regardless of the
state left by the first call, because the method resets self.gaps and
recomputes the list purely from self.extractions. -/
theorem analyzeAll_idempotent (s : AnalyzerState) :
    (analyzeAll (analyzeAll s).1).2 = (analyzeAll s).2 ∧
      (analyzeAll (analyzeAll s).1).1.gaps = (analyzeAll s).1.gaps := by
  constructor <;> rfl

/-- Claim C9 witness: the two calls agree on a concrete analyzer whose
state starts with a stale non-empty gaps field. -/
theorem analyzeAll_idempotent_witness :
    (analyzeAll (analyzeAll ⟨[], KNOWN_GAPS⟩).1).2 = (analyzeAll (⟨[], KNOWN_GAPS⟩ : AnalyzerState)).2 ∧
      (analyzeAll (analyzeAll ⟨[], KNOWN_GAPS⟩).1).1.gaps = (analyzeAll (⟨[], KNOWN_GAPS⟩ : AnalyzerState)).1.gaps :=
  analyzeAll_idempotent ⟨[], KNOWN_GAPS⟩

/-- Claim C10: a GapAnalyzer or MatrixBuilder constructed with no
extraction records (None or an empty mapping) defaults the exported
labs_analyzed metadata and the lab columns of the domain-coverage,
safeguard and commitment matrices to the four canonical labs (column keys
carry the titled lab names). -/
theorem empty_extractions_default_labs :
    labsAnalyzed (initExtractions none) = ["anthropic", "openai", "deepmind", "meta"] ∧
    labsAnalyzed (initExtractions (some [])) = ["anthropic", "openai", "deepmind", "meta"] ∧
    matrixLabs (initExtractions none) = ["anthropic", "openai", "deepmind", "meta"] ∧
    matrixLabs (initExtractions (some [])) = ["anthropic", "openai", "deepmind", "meta"] ∧
    (domainCoverageMatrix (initExtractions none)).map (fun r => r.cells.map Prod.fst) =
      List.replicate 6 (["anthropic", "openai", "deepmind", "meta"].map titleCase) ∧
    (safeguardMatrix (initExtractions none)).map (fun r => r.cells.map Prod.fst) =
      List.replicate 5 (["anthropic", "openai", "deepmind", "meta"].map titleCase) ∧
    (commitmentMatrix (initExtractions none)).map (fun r => r.cells.map Prod.fst) =
      List.replicate 4 (["anthropic", "openai", "deepmind", "meta"].map titleCase) ∧
    (domainCoverageMatrix (initExtractions (some []))).map (fun r => r.cells.map Prod.fst) =
      List.replicate 6 (["anthropic", "openai", "deepmind", "meta"].map titleCase) ∧
    (safeguardMatrix (initExtractions (some []))).map (fun r => r.cells.map Prod.fst) =
      List.replicate 5 (["anthropic", "openai", "deepmind", "meta"].map titleCase) ∧
    (commitmentMatrix (initExtractions (some []))).map (fun r => r.cells.map Prod.fst) =
      List.replicate 4 (["anthropic", "openai", "deepmind", "meta"].map titleCase) := by
  decide

/-! Order facts for the display sort of GapAnalyzer.print_gap_report. -/

theorem charListLt_trans :
    ∀ (a b c : List Char), charListLt a b = true → charListLt b c = true →
      charListLt a c = true := by
  intro a
  induction a with
  | nil =>
      intro b c hab hbc
      cases b with
      | nil => exact hbc
      | cons y ys =>
          cases c with
          | nil => simp [charListLt] at hbc
          | cons z zs => simp [charListLt]
  | cons x xs ih =>
      intro b c hab hbc
      cases b with
      | nil => simp [charListLt] at hab
      | cons y ys =>
          cases c with
          | nil => simp [charListLt] at hbc
          | cons z zs =>
              simp only [charListLt] at hab hbc ⊢
              rcases lt_trichotomy x y with hxy | hxy | hxy
              · rcases lt_trichotomy y z with hyz | hyz | hyz
                · simp [lt_trans hxy hyz]
                · subst hyz; simp [hxy]
                · simp [lt_asymm hyz, hyz] at hbc
              · subst hxy
                have hab2 : charListLt xs ys = true := by
                  simpa [lt_irrefl] using hab
                rcases lt_trichotomy x z with hxz | hxz | hxz
                · simp [hxz]
                · subst hxz
                  have hbc2 : charListLt ys zs = true := by
                    simpa [lt_irrefl] using hbc
                  simp [lt_irrefl, ih ys zs hab2 hbc2]
                · simp [lt_asymm hxz, hxz] at hbc
              · simp [lt_asymm hxy, hxy] at hab

theorem charListLt_total :
    ∀ (a b : List Char), charListLt a b = true ∨ a = b ∨ charListLt b a = true := by
  intro a
  induction a with
  | nil =>
      intro b
      cases b with
      | nil => right; left; rfl
      | cons y ys => left; simp [charListLt]
  | cons x xs ih =>
      intro b
      cases b with
      | nil => right; right; simp [charListLt]
      | cons y ys =>
          rcases lt_trichotomy x y with hxy | hxy | hxy
          · left; simp [charListLt, hxy]
          · subst hxy
            rcases ih ys with h | h | h
            · left; simp [charListLt, h]
            · right; left; rw [h]
            · right; right; simp [charListLt, h]
          · right; right; simp [charListLt, hxy]

theorem strLt_trans {a b c : String} (hab : strLt a b = true) (hbc : strLt b c = true) :
    strLt a c = true :=
  charListLt_trans a.data b.data c.data hab hbc

theorem strLt_irrefl (a : String) : strLt a a = false := by
  unfold strLt
  induction a.data with
  | nil => rfl
  | cons x xs ih => simp [charListLt, ih]

theorem strLe_total (a b : String) : strLe a b = true ∨ strLe b a = true := by
  unfold strLe
  rcases charListLt_total a.data b.data with h | h | h
  · left; simp [strLt, h]
  · left
    have : a = b := congrArg String.mk h
    simp [this]
  · right; simp [strLt, h]

theorem strLe_trans {a b c : String} (hab : strLe a b = true) (hbc : strLe b c = true) :
    strLe a c = true := by
  unfold strLe at hab hbc ⊢
  simp only [Bool.or_eq_true, beq_iff_eq] at hab hbc ⊢
  rcases hab with hab | rfl
  · rcases hbc with hbc | rfl
    · exact Or.inl (strLt_trans hab hbc)
    · exact Or.inl hab
  · exact hbc

instance : IsTrans Gap gapDisplayLE where
  trans := by
    intro a b c hab hbc
    rcases hab with hab | ⟨heq, hle⟩
    · rcases hbc with hbc | ⟨heq2, _⟩
      · exact Or.inl (strLt_trans hab hbc)
      · exact Or.inl (heq2 ▸ hab)
    · rcases hbc with hbc | ⟨heq2, hle2⟩
      · exact Or.inl (heq ▸ hbc)
      · exact Or.inr ⟨heq.trans heq2, strLe_trans hle hle2⟩

instance : IsTotal Gap gapDisplayLE where
  total := by
    intro a b
    rcases charListLt_total a.severity.val.data b.severity.val.data with h | h | h
    · exact Or.inl (Or.inl h)
    · have heq : a.severity.val = b.severity.val := by
        cases hsa : a.severity.val
        cases hsb : b.severity.val
        simp_all
      rcases strLe_total a.gap_id b.gap_id with h2 | h2
      · exact Or.inl (Or.inr ⟨heq, h2⟩)
      · exact Or.inr (Or.inr ⟨heq.symm, h2⟩)
    · exact Or.inr (Or.inl h)

/-- The severity grouping that the display sort actually produces: the
lexicographic order of the severity value strings puts high before low
before medium. -/
def severityDisplayRank : GapSeverity → Nat
  | .HIGH => 0
  | .LOW => 1
  | .MEDIUM => 2

/-- The severity grouping asserted by the claim (high, then medium, then
low). -/
def claimedSeverityRank : GapSeverity → Nat
  | .HIGH => 0
  | .MEDIUM => 1
  | .LOW => 2

/-- Claim C5 counterexample: on the curated catalog itself the display
sort puts the single LOW gap (TERM-002) before all four MEDIUM gaps, so
the display order is not HIGH then MEDIUM then LOW. -/
theorem printGapReport_order_counterexample :
    (displaySortGaps (analyzeAllGaps [])).map (fun g => g.severity.val) =
      ["high", "high", "high", "high", "high", "low",
        "medium", "medium", "medium", "medium"] ∧
    ¬ List.Pairwise
        (fun g1 g2 => claimedSeverityRank g1.severity ≤ claimedSeverityRank g2.severity)
        (displaySortGaps (analyzeAllGaps [])) := by
  constructor
  · decide
  · decide

/-- Claim C5 amended: the display order is a permutation of the gap list
sorted by the pair (severity value string, gap_id) lexicographically;
because the value strings order as high, low, medium, all HIGH gaps come
first, then all LOW gaps, then all MEDIUM gaps, with ties inside a
severity broken by ascending gap_id. -/
theorem printGapReport_order (gaps : List Gap) :
    (displaySortGaps gaps).Perm gaps ∧
    List.Pairwise
      (fun g1 g2 =>
        severityDisplayRank g1.severity < severityDisplayRank g2.severity ∨
          (g1.severity = g2.severity ∧ strLe g1.gap_id g2.gap_id = true))
      (displaySortGaps gaps) := by
  constructor
  · exact List.perm_insertionSort gapDisplayLE gaps
  · have hs := List.sorted_insertionSort gapDisplayLE gaps
    refine hs.imp ?_
    intro g1 g2 h
    rcases h with h | ⟨heq, hle⟩
    · left
      have : ∀ s1 s2 : GapSeverity, strLt s1.val s2.val = true →
          severityDisplayRank s1 < severityDisplayRank s2 := by
        intro s1 s2
        cases s1 <;> cases s2 <;> decide
      exact this _ _ h
    · right
      have : ∀ s1 s2 : GapSeverity, s1.val = s2.val → s1 = s2 := by
        intro s1 s2
        cases s1 <;> cases s2 <;> decide
      exact ⟨this _ _ heq, hle⟩

/-! Facts about the positional-inference loop. -/

theorem inferGo_length (lab : String) (n : Nat) :
    ∀ (ts : List CapThreshold) (i : Nat), (inferGo lab n i ts).length = ts.length := by
  intro ts
  induction ts with
  | nil => intro i; rfl
  | cons t rest ih => intro i; simp [inferGo, ih]

theorem inferGo_get (lab : String) (n : Nat) :
    ∀ (ts : List CapThreshold) (i j : Nat) (h : j < (inferGo lab n i ts).length)
      (h2 : j < ts.length),
      (inferGo lab n i ts).get ⟨j, h⟩ = inferOne lab n (i + j) (ts.get ⟨j, h2⟩) := by
  intro ts
  induction ts with
  | nil => intro i j h h2; simp at h2
  | cons t rest ih =>
      intro i j h h2
      cases j with
      | zero => simp [inferGo]
      | succ j =>
          have h3 : j < (inferGo lab n (i + 1) rest).length := by
            simpa [inferGo] using h
          have h4 : j < rest.length := by simpa using h2
          have := ih (i + 1) j h3 h4
          simp only [inferGo, List.get_cons_succ]
          rw [this]
          congr 1
          omega

theorem mem_addInferred :
    ∀ (exts : Extractions) (acc : List (String × List LevelMapping))
      (l : String) (ms : List LevelMapping),
      (l, ms) ∈ addInferred acc exts →
      (l, ms) ∈ acc ∨
        ∃ lab ext, (lab, ext) ∈ exts ∧ strLower lab = l ∧ ms = inferMappings lab ext := by
  intro exts
  induction exts with
  | nil => intro acc l ms h; exact Or.inl h
  | cons p rest ih =>
      intro acc l ms h
      obtain ⟨lab, ext⟩ := p
      simp only [addInferred] at h
      split at h
      · rcases ih acc l ms h with h2 | ⟨lab2, ext2, h3, h4, h5⟩
        · exact Or.inl h2
        · exact Or.inr ⟨lab2, ext2, List.mem_cons_of_mem _ h3, h4, h5⟩
      · rcases ih _ l ms h with h2 | ⟨lab2, ext2, h3, h4, h5⟩
        · rcases List.mem_append.mp h2 with h3 | h3
          · exact Or.inl h3
          · simp only [List.mem_singleton, Prod.mk.injEq] at h3
            exact Or.inr ⟨lab, ext, List.mem_cons_self _ _, h3.1.symm, h3.2⟩
        · exact Or.inr ⟨lab2, ext2, List.mem_cons_of_mem _ h3, h4, h5⟩

/-- Claim C1: for every lab absent from the curated mapping set, the
mapping list installed by the terminology map construction is the
position-inferred one: index 0 maps to MINIMAL; failing that, the last
index maps to CRITICAL when there are at least 4 thresholds and SEVERE
otherwise; failing that, index 1 maps to EMERGING; every other index maps
to SIGNIFICANT; and every inferred mapping has confidence uncertain. -/
theorem inferred_mapping_levels (exts : Extractions) (l : String) (ms : List LevelMapping)
    (hmem : (l, ms) ∈ buildTerminologyMap exts)
    (hnc : l ∉ LEVEL_MAPPINGS.map Prod.fst) :
    ∃ lab ext, (lab, ext) ∈ exts ∧ strLower lab = l ∧ ms = inferMappings lab ext ∧
      ms.length = (ext.capability_thresholds.getD []).length ∧
      ∀ i (h : i < ms.length),
        ((ms.get ⟨i, h⟩).unified_level =
          if i = 0 then .MINIMAL
          else if i = ms.length - 1 then
            (if 4 ≤ ms.length then .CRITICAL else .SEVERE)
          else if i = 1 then .EMERGING
          else .SIGNIFICANT) ∧
        (ms.get ⟨i, h⟩).confidence = "uncertain" := by
  rcases mem_addInferred exts LEVEL_MAPPINGS l ms hmem with hcur | ⟨lab, ext, hin, hlow, hms⟩
  · exact absurd (List.mem_map_of_mem Prod.fst hcur) hnc
  · subst hms
    refine ⟨lab, ext, hin, hlow, rfl, ?_, ?_⟩
    · exact inferGo_length lab _ _ 0
    · intro i h
      have hlen : (inferMappings lab ext).length =
          (ext.capability_thresholds.getD []).length :=
        inferGo_length lab _ _ 0
      have h2 : i < (ext.capability_thresholds.getD []).length := hlen ▸ h
      have hget : (inferMappings lab ext).get ⟨i, h⟩ =
          inferOne lab (ext.capability_thresholds.getD []).length i
            ((ext.capability_thresholds.getD []).get ⟨i, h2⟩) := by
        have := inferGo_get lab (ext.capability_thresholds.getD []).length
          (ext.capability_thresholds.getD []) 0 i h h2
        rw [Nat.zero_add] at this
        exact this
      rw [hget, hlen]
      exact ⟨rfl, rfl⟩

/-- A sample extraction for a lab outside the curated set. -/
def c1Extraction : Extraction :=
  { capability_thresholds := some [{ level_name := some "Tier A" }, {}, {}, {}] }

/-- A sample extraction input containing only the non-curated lab. -/
def c1Input : Extractions := [("NewLab", c1Extraction)]

/-- Claim C1 witness: the inference theorem applied to a concrete
non-curated lab with four thresholds. -/
theorem inferred_mapping_levels_witness :
    ∃ lab ext, (lab, ext) ∈ c1Input ∧ strLower lab = "newlab" ∧
      inferMappings "NewLab" c1Extraction = inferMappings lab ext ∧
      (inferMappings "NewLab" c1Extraction).length =
        (ext.capability_thresholds.getD []).length ∧
      ∀ i (h : i < (inferMappings "NewLab" c1Extraction).length),
        (((inferMappings "NewLab" c1Extraction).get ⟨i, h⟩).unified_level =
          if i = 0 then .MINIMAL
          else if i = (inferMappings "NewLab" c1Extraction).length - 1 then
            (if 4 ≤ (inferMappings "NewLab" c1Extraction).length then .CRITICAL else .SEVERE)
          else if i = 1 then .EMERGING
          else .SIGNIFICANT) ∧
        (((inferMappings "NewLab" c1Extraction).get ⟨i, h⟩).confidence = "uncertain") :=
  inferred_mapping_levels c1Input "newlab" (inferMappings "NewLab" c1Extraction)
    (by decide) (by decide)

/-! Facts about the gap-id deduplication loop. -/

theorem dedupGo_nodup :
    ∀ (gaps : List Gap) (seen : List String),
      ((dedupGo seen gaps).map Gap.gap_id).Nodup ∧
        ∀ g ∈ dedupGo seen gaps, g.gap_id ∉ seen := by
  intro gaps
  induction gaps with
  | nil => intro seen; simp [dedupGo]
  | cons g rest ih =>
      intro seen
      unfold dedupGo
      split
      · rename_i hc
        obtain ⟨hnd, hns⟩ := ih seen
        exact ⟨hnd, hns⟩
      · rename_i hc
        have hc2 : g.gap_id ∉ seen := by
          intro hin
          exact hc (by simpa [List.contains, List.elem_eq_mem] using hin)
        obtain ⟨hnd, hns⟩ := ih (g.gap_id :: seen)
        constructor
        · simp only [List.map_cons, List.nodup_cons]
          refine ⟨?_, hnd⟩
          intro hmem
          rcases List.mem_map.mp hmem with ⟨g2, hg2, hid⟩
          exact hns g2 hg2 (by rw [hid]; exact List.mem_cons_self _ _)
        · intro g2 hg2
          rcases List.mem_cons.mp hg2 with rfl | hg2
          · exact hc2
          · intro hin
            exact hns g2 hg2 (List.mem_cons_of_mem _ hin)

theorem dedupGo_sublist :
    ∀ (gaps : List Gap) (seen : List String), List.Sublist (dedupGo seen gaps) gaps := by
  intro gaps
  induction gaps with
  | nil => intro seen; simp [dedupGo]
  | cons g rest ih =>
      intro seen
      unfold dedupGo
      split
      · exact (ih seen).cons g
      · exact (ih (g.gap_id :: seen)).cons₂ g

theorem dedupGo_complete :
    ∀ (gaps : List Gap) (seen : List String) (g : Gap), g ∈ gaps →
      g.gap_id ∈ seen ∨ ∃ g2 ∈ dedupGo seen gaps, g2.gap_id = g.gap_id := by
  intro gaps
  induction gaps with
  | nil => intro seen g h; simp at h
  | cons g0 rest ih =>
      intro seen g h
      unfold dedupGo
      rcases List.mem_cons.mp h with rfl | h2
      · split
        · rename_i hc
          left
          simpa [List.contains, List.elem_eq_mem] using hc
        · right
          exact ⟨g, List.mem_cons_self _ _, rfl⟩
      · split
        · exact ih seen g h2
        · rcases ih (g0.gap_id :: seen) g h2 with hin | ⟨g2, hg2, hid⟩
          · rcases List.mem_cons.mp hin with heq | hin2
            · right
              exact ⟨g0, List.mem_cons_self _ _, heq.symm⟩
            · left
              exact hin2
          · right
            exact ⟨g2, List.mem_cons_of_mem _ hg2, hid⟩

theorem dedupGo_first :
    ∀ (gaps : List Gap) (seen : List String) (g2 : Gap), g2 ∈ dedupGo seen gaps →
      g2.gap_id ∉ seen ∧ gaps.find? (fun x => x.gap_id == g2.gap_id) = some g2 := by
  intro gaps
  induction gaps with
  | nil => intro seen g2 h; simp [dedupGo] at h
  | cons g rest ih =>
      intro seen g2 h
      unfold dedupGo at h
      split at h
      · rename_i hc
        have hcm : g.gap_id ∈ seen := by
          simpa [List.contains, List.elem_eq_mem] using hc
        obtain ⟨hns, hfind⟩ := ih seen g2 h
        refine ⟨hns, ?_⟩
        rw [List.find?_cons_of_neg, hfind]
        intro hbeq
        exact hns (by rwa [← beq_iff_eq.mp hbeq])
      · rename_i hc
        rcases List.mem_cons.mp h with rfl | h2
        · constructor
          · intro hin
            exact hc (by simpa [List.contains, List.elem_eq_mem] using hin)
          · exact List.find?_cons_of_pos _ (beq_iff_eq.mpr rfl)
        · obtain ⟨hns, hfind⟩ := ih (g.gap_id :: seen) g2 h2
          have hne : g.gap_id ≠ g2.gap_id := by
            intro heq
            exact hns (heq ▸ List.mem_cons_self _ _)
          refine ⟨fun hin => hns (List.mem_cons_of_mem _ hin), ?_⟩
          rw [List.find?_cons_of_neg, hfind]
          intro hbeq
          exact hne (beq_iff_eq.mp hbeq)

theorem filter_coverageGapStep_flatMap_not_mem (extractions : Extractions) (d : String) :
    ∀ (l : List String), d ∉ l →
      (l.flatMap (coverageGapStep extractions)).filter (fun g => g.domain == some d) = [] := by
  intro l
  induction l with
  | nil => intro h; rfl
  | cons x xs ih =>
      intro h
      have hdx : d ≠ x := fun heq => h (heq ▸ List.mem_cons_self _ _)
      have hxs : d ∉ xs := fun hin => h (List.mem_cons_of_mem _ hin)
      rw [List.flatMap_cons, List.filter_append, ih hxs, List.append_nil]
      rw [List.filter_eq_nil_iff]
      intro g hg
      have hdom := (mem_coverageGapStep extractions x g hg).2
      simp [hdom, hdx.symm]

theorem filter_coverageGapStep_flatMap_mem (extractions : Extractions) (d : String) :
    ∀ (l : List String), l.Nodup → d ∈ l →
      (l.flatMap (coverageGapStep extractions)).filter (fun g => g.domain == some d) =
        (coverageGapStep extractions d).filter (fun g => g.domain == some d) := by
  intro l
  induction l with
  | nil => intro _ h; simp at h
  | cons x xs ih =>
      intro hnd hmem
      have hx : x ∉ xs := (List.nodup_cons.mp hnd).1
      rcases List.mem_cons.mp hmem with rfl | h2
      · rw [List.flatMap_cons, List.filter_append,
          filter_coverageGapStep_flatMap_not_mem extractions d xs hx, List.append_nil]
      · have hdx : d ≠ x := fun heq => hx (heq ▸ h2)
        rw [List.flatMap_cons, List.filter_append]
        have hnil : (coverageGapStep extractions x).filter (fun g => g.domain == some d) = [] := by
          rw [List.filter_eq_nil_iff]
          intro g hg
          have hdom := (mem_coverageGapStep extractions x g hg).2
          simp [hdom, hdx.symm]
        rw [hnil, List.nil_append, ih (List.nodup_cons.mp hnd).2 h2]

/-- Claim C2 (amended with the exclusion, present in the source, of the literal domain
name "other"): for every domain appearing in the supplied risk_domains,
when some lab covers it with full or partial coverage, some lab does not,
the domain is not the excluded name "other", and no curated gap id starts
with the COV- three-letter prefix of the domain, find_coverage_gaps emits
exactly one gap for that domain, a MEDIUM-severity coverage gap whose
affected_labs are exactly the labs not covering the domain. -/
theorem coverage_gap_synthesis (exts : Extractions) (d : String)
    (hd : d ∈ getAllDomains exts)
    (hcov : (exts.filter (fun p => labCovers p.2 d)).map Prod.fst ≠ [])
    (hmiss : (exts.filter (fun p => !labCovers p.2 d)).map Prod.fst ≠ [])
    (hother : d ≠ "other")
    (hcur : KNOWN_GAPS.any
      (fun g => strStartsWith g.gap_id ("COV-" ++ strUpper (strTake d 3))) = false) :
    (findCoverageGaps exts).filter (fun g => g.domain == some d) =
      [mkCoverageGap d ((exts.filter (fun p => !labCovers p.2 d)).map Prod.fst)] ∧
    (mkCoverageGap d ((exts.filter (fun p => !labCovers p.2 d)).map Prod.fst)).severity =
      .MEDIUM ∧
    (mkCoverageGap d ((exts.filter (fun p => !labCovers p.2 d)).map Prod.fst)).type =
      .COVERAGE ∧
    (mkCoverageGap d ((exts.filter (fun p => !labCovers p.2 d)).map Prod.fst)).affected_labs =
      (exts.filter (fun p => !labCovers p.2 d)).map Prod.fst := by
  refine ⟨?_, rfl, rfl, rfl⟩
  rw [findCoverageGaps_eq_flatMap,
    filter_coverageGapStep_flatMap_mem exts d (getAllDomains exts)
      (nodup_getAllDomains exts) hd]
  have hstep : coverageGapStep exts d =
      [mkCoverageGap d ((exts.filter (fun p => !labCovers p.2 d)).map Prod.fst)] := by
    simp only [coverageGapStep]
    rw [if_pos, if_pos]
    · rw [hcur]; rfl
    · simp [List.isEmpty_eq_false.mpr hcov, List.isEmpty_eq_false.mpr hmiss, hother]
  rw [hstep]
  simp [mkCoverageGap]

/-- The concrete input of the C2 witness scenario: lab A fully covers
cyber, lab B has no cyber entry. -/
def c2CyberInput : Extractions :=
  [("A", { risk_domains := some [{ domain := some "cyber", coverage := some "full" }] }),
   ("B", {})]

/-- Claim C2 witness: on the \x7bA: \x7bcyber: full\x7d, B: \x7b\x7d\x7d input the
synthesizer emits exactly one coverage gap for cyber, and its
affected_labs are exactly ["B"]. -/
theorem coverage_gap_synthesis_witness :
    (findCoverageGaps c2CyberInput).filter (fun g => g.domain == some "cyber") =
      [mkCoverageGap "cyber"
        ((c2CyberInput.filter (fun p => !labCovers p.2 "cyber")).map Prod.fst)] ∧
    (c2CyberInput.filter (fun p => !labCovers p.2 "cyber")).map Prod.fst = ["B"] := by
  have h := coverage_gap_synthesis c2CyberInput "cyber" (by decide) (by decide)
    (by decide) (by decide) (by decide)
  exact ⟨h.1, by decide⟩

/-- The concrete input refuting C2 as stated: lab A covers the domain
named "other" and lab B does not. -/
def c2OtherInput : Extractions :=
  [("A", { risk_domains := some [{ domain := some "other", coverage := some "full" }] }),
   ("B", {})]

/-- Claim C2 counterexample: for the domain "other" every precondition of
the claim holds (it appears in the supplied risk_domains, the covering and
missing lab sets are both non-empty, and no curated gap id starts with
COV-OTH), yet find_coverage_gaps emits no gap for it, because the source
skips the domain name "other". -/
theorem coverage_gap_synthesis_counterexample :
    "other" ∈ getAllDomains c2OtherInput ∧
    (c2OtherInput.filter (fun p => labCovers p.2 "other")).map Prod.fst = ["A"] ∧
    (c2OtherInput.filter (fun p => !labCovers p.2 "other")).map Prod.fst = ["B"] ∧
    KNOWN_GAPS.any
      (fun g => strStartsWith g.gap_id ("COV-" ++ strUpper (strTake "other" 3))) = false ∧
    (findCoverageGaps c2OtherInput).filter (fun g => g.domain == some "other") = [] := by
  decide

/-- Claim C4 (amended): a risk_domains entry that names a domain but omits
the coverage field is shown with the partial symbol by the domain-coverage
matrix (dict.get defaults the coverage to partial there), but the
coverage-gap synthesizer counts a lab as covering a domain only when some
entry explicitly declares coverage full or partial, so an entry with a
missing coverage field does not count. -/
theorem missing_coverage_defaults (e : Extraction) (domain : String) (rd : RiskDomain)
    (hfind : (e.risk_domains.getD []).find?
      (fun rd => strLower (rd.domain.getD "") == domain) = some rd)
    (hcov : rd.coverage = none) :
    coverageCellFor e domain = "◐" ∧
    (labCovers e domain = true ↔
      ∃ rd2 ∈ e.risk_domains.getD [],
        strLower (rd2.domain.getD "") = strLower domain ∧
          (rd2.coverage = some "full" ∨ rd2.coverage = some "partial")) := by
  constructor
  · unfold coverageCellFor
    rw [hfind]
    simp only [hcov]
    rfl
  · unfold labCovers
    simp only [List.any_eq_true, Bool.and_eq_true, Bool.or_eq_true, beq_iff_eq]

/-- Claim C4 witness: the amended theorem applied to a record with a cyber
entry that omits the coverage field. -/
theorem missing_coverage_defaults_witness :
    coverageCellFor { risk_domains := some [{ domain := some "cyber" }] } "cyber" = "◐" ∧
    (labCovers { risk_domains := some [{ domain := some "cyber" }] } "cyber" = true ↔
      ∃ rd2 ∈ (Extraction.risk_domains
          { risk_domains := some [{ domain := some "cyber" }] }).getD [],
        strLower (rd2.domain.getD "") = strLower "cyber" ∧
          (rd2.coverage = some "full" ∨ rd2.coverage = some "partial")) :=
  missing_coverage_defaults { risk_domains := some [{ domain := some "cyber" }] } "cyber"
    { domain := some "cyber" } (by decide) rfl

/-- The concrete input refuting C4 as stated: lab A names cyber without a
coverage field, lab B covers cyber fully. -/
def c4Input : Extractions :=
  [("A", { risk_domains := some [{ domain := some "cyber" }] }),
   ("B", { risk_domains := some [{ domain := some "cyber", coverage := some "full" }] })]

/-- Claim C4 counterexample: the lab whose cyber entry omits the coverage
field is not counted as covering cyber by the synthesizer (it lands in the
affected_labs of the synthesized gap), even though the matrix shows the
partial symbol for the same record. -/
theorem missing_coverage_defaults_counterexample :
    labCovers { risk_domains := some [{ domain := some "cyber" }] } "cyber" = false ∧
    (findCoverageGaps c4Input).map (fun g => g.affected_labs) = [["A"]] ∧
    coverageCellFor { risk_domains := some [{ domain := some "cyber" }] } "cyber" = "◐" := by
  decide

/-! Key-uniqueness of the terminology map and facts about equivalents. -/

theorem nodupKeys_addInferred :
    ∀ (exts : Extractions) (acc : List (String × List LevelMapping)),
      (acc.map Prod.fst).Nodup → ((addInferred acc exts).map Prod.fst).Nodup := by
  intro exts
  induction exts with
  | nil => intro acc h; exact h
  | cons p rest ih =>
      intro acc h
      obtain ⟨lab, ext⟩ := p
      simp only [addInferred]
      split
      · exact ih acc h
      · rename_i hc
        refine ih _ ?_
        have hnin : strLower lab ∉ acc.map Prod.fst := by
          intro hin
          exact hc (by simpa [List.contains, List.elem_eq_mem] using hin)
        simp [List.nodup_append, h, hnin]

theorem nodupKeys_buildTerminologyMap (exts : Extractions) :
    ((buildTerminologyMap exts).map Prod.fst).Nodup :=
  nodupKeys_addInferred exts LEVEL_MAPPINGS (by decide)

theorem keys_filterMap_sublist {β : Type} {f : (String × List LevelMapping) → Option (String × β)}
    (hf : ∀ p q, f p = some q → q.1 = p.1) :
    ∀ (tm : List (String × List LevelMapping)),
      List.Sublist ((tm.filterMap f).map Prod.fst) (tm.map Prod.fst) := by
  intro tm
  induction tm with
  | nil => simp
  | cons p ps ih =>
      rw [List.filterMap_cons]
      cases hfp : f p with
      | none =>
          simp only [List.map_cons]
          exact ih.cons p.1
      | some q =>
          simp only [List.map_cons]
          rw [hf p q hfp]
          exact ih.cons₂ p.1

/-- Claim C7: get_equivalents never returns the source lab (not even under
case differences) as a key; each other lab appears at most once; each
returned level name is the name of the first mapping of that lab sharing the
resolved unified level; and the result is empty whenever the source level
name does not resolve to a unified level. -/
theorem get_equivalents_props (exts : Extractions) (lab levelName : String) :
    (∀ p ∈ getEquivalents (buildTerminologyMap exts) lab levelName,
      strLower p.1 ≠ strLower lab ∧ p.1 ≠ lab) ∧
    ((getEquivalents (buildTerminologyMap exts) lab levelName).map Prod.fst).Nodup ∧
    (∀ p ∈ getEquivalents (buildTerminologyMap exts) lab levelName,
      ∃ u, getUnifiedLevel (buildTerminologyMap exts) lab levelName = some u ∧
        ∃ ms, (p.1, ms) ∈ buildTerminologyMap exts ∧
          ∃ m, ms.find? (fun m => m.unified_level == u) = some m ∧
            p.2 = m.lab_level_name) ∧
    (getUnifiedLevel (buildTerminologyMap exts) lab levelName = none →
      getEquivalents (buildTerminologyMap exts) lab levelName = []) := by
  cases hu : getUnifiedLevel (buildTerminologyMap exts) lab levelName with
  | none =>
      refine ⟨?_, ?_, ?_, fun _ => ?_⟩ <;>
        simp [getEquivalents, hu]
  | some u =>
      have hmem : ∀ p ∈ getEquivalents (buildTerminologyMap exts) lab levelName,
          ∃ q ∈ buildTerminologyMap exts,
            strLower q.1 ≠ strLower lab ∧ p.1 = q.1 ∧
              ∃ m, q.2.find? (fun m => m.unified_level == u) = some m ∧
                p.2 = m.lab_level_name := by
        intro p hp
        simp only [getEquivalents, hu, List.mem_filterMap] at hp
        obtain ⟨q, hq, hfq⟩ := hp
        split at hfq
        · rename_i hne
          cases hfind : q.2.find? (fun m => m.unified_level == u) with
          | none => rw [hfind] at hfq; exact Option.noConfusion hfq
          | some m =>
              rw [hfind] at hfq
              simp only [Option.map_some'] at hfq
              obtain rfl := Option.some.inj hfq
              exact ⟨q, hq, hne, rfl, m, hfind, rfl⟩
        · exact Option.noConfusion hfq
      refine ⟨?_, ?_, ?_, fun h => Option.noConfusion h⟩
      · intro p hp
        obtain ⟨q, _, hne, hpq, _⟩ := hmem p hp
        refine ⟨hpq ▸ hne, ?_⟩
        intro heq
        exact hne (by rw [← hpq, heq])
      · have hsub : List.Sublist
            ((getEquivalents (buildTerminologyMap exts) lab levelName).map Prod.fst)
            ((buildTerminologyMap exts).map Prod.fst) := by
          simp only [getEquivalents, hu]
          refine keys_filterMap_sublist ?_ (buildTerminologyMap exts)
          intro p q hfq
          split at hfq
          · cases hfind : p.2.find? (fun m => m.unified_level == u) with
            | none => rw [hfind] at hfq; exact Option.noConfusion hfq
            | some m =>
                rw [hfind] at hfq
                simp only [Option.map_some'] at hfq
                obtain rfl := Option.some.inj hfq
                rfl
          · exact Option.noConfusion hfq
        exact (nodupKeys_buildTerminologyMap exts).sublist hsub
      · intro p hp
        obtain ⟨q, hq, _, hpq, m, hfind, hname⟩ := hmem p hp
        exact ⟨u, rfl, q.2, by rw [hpq]; exact hq, m, hfind, hname⟩

/-- Claim C7 witness: in the curated-only map, the equivalents of
anthropic ASL-2 exclude anthropic, have pairwise distinct keys, and the
openai entry is the first EMERGING mapping of openai. -/
theorem get_equivalents_props_witness :
    strLower "openai" ≠ strLower "anthropic" ∧ ("openai" : String) ≠ "anthropic" ∧
    ((getEquivalents (buildTerminologyMap []) "anthropic" "ASL-2").map Prod.fst).Nodup ∧
    ("openai", "Medium") ∈ getEquivalents (buildTerminologyMap []) "anthropic" "ASL-2" := by
  have h := get_equivalents_props [] "anthropic" "ASL-2"
  have hmem : ("openai", "Medium") ∈ getEquivalents (buildTerminologyMap []) "anthropic" "ASL-2" := by
    decide
  exact ⟨(h.1 _ hmem).1, (h.1 _ hmem).2, h.2.1, hmem⟩

/-- Claim C8: the core operations degrade gracefully on reasonably shaped
records: an unknown lab yields none or the empty list or map, an
unresolved level name yields the empty map, a domain matching no gap
yields the empty list, and a record whose list-valued fields are all
missing behaves exactly like one with empty lists (the embedding of every
operation is total, so no translated operation can raise). -/
theorem graceful_degradation (exts : Extractions) (lab levelName domain sgType cType : String)
    (u : UnifiedLevel) (gaps : List Gap) (e : Extraction) :
    (List.lookup (strLower lab) (buildTerminologyMap exts) = none →
      getUnifiedLevel (buildTerminologyMap exts) lab levelName = none ∧
      getLabLevels (buildTerminologyMap exts) lab = []) ∧
    (getUnifiedLevel (buildTerminologyMap exts) lab levelName = none →
      getEquivalents (buildTerminologyMap exts) lab levelName = []) ∧
    (List.lookup lab (buildTerminologyMap exts) = none →
      getLabLevel (buildTerminologyMap exts) lab u = none) ∧
    ((∀ g ∈ gaps, ∀ dg, g.domain = some dg → strLower dg ≠ strLower domain) →
      getGapsByDomain gaps domain = []) ∧
    (e.capability_thresholds = none → inferMappings lab e = []) ∧
    (e.risk_domains = none →
      labCovers e domain = false ∧ coverageCellFor e domain = "?" ∧
      extractedDomains [(lab, e)] = []) ∧
    (e.safeguards = none → safeguardCell e sgType = "-") ∧
    (e.commitments = none → commitmentCell e cType = "-") := by
  refine ⟨?_, ?_, ?_, ?_, ?_, ?_, ?_, ?_⟩
  · intro h
    constructor
    · simp [getUnifiedLevel, h]
    · simp [getLabLevels, h]
  · intro h
    simp [getEquivalents, h]
  · intro h
    simp [getLabLevel, h]
  · intro h
    rw [getGapsByDomain, List.filter_eq_nil_iff]
    intro g hg
    cases hdom : g.domain with
    | none => simp
    | some dg =>
        have := h g hg dg hdom
        simp [this]
  · intro h
    simp [inferMappings, h, inferGo]
  · intro h
    refine ⟨?_, ?_, ?_⟩
    · simp [labCovers, h]
    · simp [coverageCellFor, h, coverageSymbol]
      decide
    · simp [extractedDomains, h]
  · intro h
    simp [safeguardCell, h]
  · intro h
    simp [commitmentCell, h]

/-- Claim C8 witness: graceful degradation at a concrete unknown lab,
unknown level name, unmatched domain and all-missing record. -/
theorem graceful_degradation_witness :
    getUnifiedLevel (buildTerminologyMap []) "unknownlab" "ASL-9" = none ∧
    getLabLevels (buildTerminologyMap []) "unknownlab" = [] ∧
    getEquivalents (buildTerminologyMap []) "unknownlab" "ASL-9" = [] ∧
    getLabLevel (buildTerminologyMap []) "unknownlab" .MINIMAL = none ∧
    getGapsByDomain KNOWN_GAPS "quantum" = [] ∧
    inferMappings "unknownlab" {} = [] ∧
    labCovers {} "quantum" = false ∧
    coverageCellFor {} "quantum" = "?" ∧
    safeguardCell {} "security" = "-" ∧
    commitmentCell {} "pause" = "-" := by
  have h := graceful_degradation [] "unknownlab" "ASL-9" "quantum" "security" "pause"
    .MINIMAL KNOWN_GAPS {}
  obtain ⟨h1, h2, h3, h4, h5, h6, h7, h8⟩ := h
  have hlk : List.lookup (strLower "unknownlab") (buildTerminologyMap []) = none := by decide
  have hlk2 : List.lookup "unknownlab" (buildTerminologyMap []) = none := by decide
  refine ⟨(h1 hlk).1, (h1 hlk).2, h2 (h1 hlk).1, h3 hlk2, h4 (by decide), h5 rfl,
    (h6 rfl).1, (h6 rfl).2.1, h7 rfl, h8 rfl⟩

/-! Lookup facts for the terminology map. -/

theorem lookup_append_left {β : Type} (k : String) :
    ∀ (l1 l2 : List (String × β)), k ∈ l1.map Prod.fst →
      List.lookup k (l1 ++ l2) = List.lookup k l1 := by
  intro l1
  induction l1 with
  | nil => intro l2 h; simp at h
  | cons p ps ih =>
      intro l2 h
      obtain ⟨a, b⟩ := p
      rw [List.cons_append]
      cases hk : (k == a) with
      | true => simp [List.lookup, hk]
      | false =>
          simp only [List.lookup, hk]
          apply ih
          simp only [List.map_cons, List.mem_cons] at h
          rcases h with heq | h2
          · exact absurd (beq_iff_eq.mpr heq) (by simp [hk])
          · exact h2

theorem mem_of_lookup_eq_some {β : Type} (k : String) :
    ∀ (l : List (String × β)) (v : β), List.lookup k l = some v →
      k ∈ l.map Prod.fst := by
  intro l
  induction l with
  | nil => intro v h; simp [List.lookup] at h
  | cons p ps ih =>
      intro v h
      obtain ⟨a, b⟩ := p
      cases hk : (k == a) with
      | true =>
          simp only [List.map_cons]
          exact List.mem_cons.mpr (Or.inl (beq_iff_eq.mp hk))
      | false =>
          simp only [List.lookup, hk] at h
          exact List.mem_cons_of_mem _ (ih v h)

theorem lookup_of_mem_nodupKeys {β : Type} (k : String) (v : β) :
    ∀ (l : List (String × β)), (l.map Prod.fst).Nodup → (k, v) ∈ l →
      List.lookup k l = some v := by
  intro l
  induction l with
  | nil => intro _ h; simp at h
  | cons p ps ih =>
      intro hnd h
      obtain ⟨a, b⟩ := p
      simp only [List.map_cons, List.nodup_cons] at hnd
      rcases List.mem_cons.mp h with heq | h2
      · rw [← heq]
        simp [List.lookup]
      · have hkps : k ∈ ps.map Prod.fst := List.mem_map_of_mem Prod.fst h2
        have hka : k ≠ a := fun heq2 => hnd.1 (heq2 ▸ hkps)
        simp only [List.lookup, beq_eq_false_iff_ne.mpr hka]
        exact ih hnd.2 h2

theorem lookup_addInferred :
    ∀ (exts : Extractions) (acc : List (String × List LevelMapping)) (k : String),
      k ∈ acc.map Prod.fst →
      List.lookup k (addInferred acc exts) = List.lookup k acc := by
  intro exts
  induction exts with
  | nil => intro acc k h; rfl
  | cons p rest ih =>
      intro acc k h
      obtain ⟨lab, ext⟩ := p
      simp only [addInferred]
      split
      · exact ih acc k h
      · rw [ih _ k (by rw [List.map_append]; exact List.mem_append_left _ h)]
        exact lookup_append_left k acc _ h

/-- Claim C6: the comparison matrix has exactly one row per UnifiedLevel,
in enum order whose values ascend 1..5, with one cell per lab column plus
the description column; and for every curated lab, every unified level
with a curated mapping appears in that row and the column of that lab as
a non-"-" cell holding the level name of the lab plus a confidence glyph. -/
theorem comparison_matrix_curated (exts : Extractions) (lab : String) (u : UnifiedLevel)
    (ms : List LevelMapping) (hlab : (lab, ms) ∈ LEVEL_MAPPINGS)
    (hex : ∃ m ∈ ms, m.unified_level = u) :
    (comparisonMatrix exts).length = 5 ∧
    comparisonMatrix exts =
      allUnifiedLevels.map
        (compRow (buildTerminologyMap exts) (getAllLabs (buildTerminologyMap exts))) ∧
    allUnifiedLevels.map UnifiedLevel.value = [1, 2, 3, 4, 5] ∧
    (∀ row ∈ comparisonMatrix exts,
      row.cells.map Prod.fst = (getAllLabs (buildTerminologyMap exts)).map titleCase) ∧
    ∃ m, getLabLevel (buildTerminologyMap exts) lab u = some m ∧ m.unified_level = u ∧
      ∃ i, (getAllLabs (buildTerminologyMap exts)).get? i = some lab ∧
        (compRow (buildTerminologyMap exts) (getAllLabs (buildTerminologyMap exts)) u).cells.get?
            i =
          some (titleCase lab, m.lab_level_name ++ confidenceGlyph m.confidence) ∧
        m.lab_level_name ++ confidenceGlyph m.confidence ≠ "-" := by
  have hlk : List.lookup lab (buildTerminologyMap exts) = some ms := by
    rw [buildTerminologyMap,
      lookup_addInferred exts LEVEL_MAPPINGS lab (List.mem_map_of_mem Prod.fst hlab)]
    exact lookup_of_mem_nodupKeys lab ms LEVEL_MAPPINGS (by decide) hlab
  have hglmem : lab ∈ (buildTerminologyMap exts).map Prod.fst :=
    mem_of_lookup_eq_some lab _ ms hlk
  have hsome : (ms.find? (fun m => m.unified_level == u)).isSome := by
    rw [List.find?_isSome]
    obtain ⟨m, hm, hmu⟩ := hex
    exact ⟨m, hm, by simp [hmu]⟩
  obtain ⟨m, hfind⟩ := Option.isSome_iff_exists.mp hsome
  have hmu : m.unified_level = u := by
    have := List.find?_some hfind
    simpa using this
  have hmmem : m ∈ ms := List.mem_of_find?_eq_some hfind
  have hgll : getLabLevel (buildTerminologyMap exts) lab u = some m := by
    simp [getLabLevel, hlk, hfind]
  have hconf : m.confidence = "exact" ∨ m.confidence = "approximate" := by
    have hall : ∀ p ∈ LEVEL_MAPPINGS, ∀ m2 ∈ p.2,
        m2.confidence = "exact" ∨ m2.confidence = "approximate" := by decide
    exact hall (lab, ms) hlab m hmmem
  have hnd : m.lab_level_name ++ confidenceGlyph m.confidence ≠ "-" := by
    intro heq
    have hlen := congrArg String.length heq
    rw [String.length_append] at hlen
    have hg : (confidenceGlyph m.confidence).length = 2 := by
      rcases hconf with h | h <;> rw [confidenceGlyph, h] <;> rfl
    rw [hg] at hlen
    have hone : ("-" : String).length = 1 := rfl
    rw [hone] at hlen
    omega
  refine ⟨rfl, rfl, by decide, ?_, m, hgll, hmu, ?_⟩
  · intro row hrow
    simp only [comparisonMatrix, List.mem_map] at hrow
    obtain ⟨v, _, hv⟩ := hrow
    rw [← hv]
    simp [compRow]
  · obtain ⟨i, hgi⟩ := List.mem_iff_get?.mp hglmem
    refine ⟨i, hgi, ?_, hnd⟩
    have hmap : (compRow (buildTerminologyMap exts)
        (getAllLabs (buildTerminologyMap exts)) u).cells.get? i =
        ((getAllLabs (buildTerminologyMap exts)).get? i).map
          (fun lab2 =>
            (titleCase lab2,
              match getLabLevel (buildTerminologyMap exts) lab2 u with
              | some m2 => m2.lab_level_name ++ confidenceGlyph m2.confidence
              | none => "-")) :=
      List.get?_map _ _ _
    rw [hmap, show (getAllLabs (buildTerminologyMap exts)).get? i = some lab from hgi,
      Option.map_some']
    simp only [hgll]

/-- Claim C6 witness: the curated anthropic MINIMAL mapping appears as a
non-"-" cell in the first row of the concrete comparison matrix. -/
theorem comparison_matrix_curated_witness :
    (comparisonMatrix []).length = 5 ∧
    comparisonMatrix [] =
      allUnifiedLevels.map
        (compRow (buildTerminologyMap []) (getAllLabs (buildTerminologyMap []))) ∧
    allUnifiedLevels.map UnifiedLevel.value = [1, 2, 3, 4, 5] ∧
    (∀ row ∈ comparisonMatrix [],
      row.cells.map Prod.fst = (getAllLabs (buildTerminologyMap [])).map titleCase) ∧
    ∃ m, getLabLevel (buildTerminologyMap []) "anthropic" .MINIMAL = some m ∧
      m.unified_level = .MINIMAL ∧
      ∃ i, (getAllLabs (buildTerminologyMap [])).get? i = some "anthropic" ∧
        (compRow (buildTerminologyMap []) (getAllLabs (buildTerminologyMap []))
            .MINIMAL).cells.get? i =
          some (titleCase "anthropic", m.lab_level_name ++ confidenceGlyph m.confidence) ∧
        m.lab_level_name ++ confidenceGlyph m.confidence ≠ "-" :=
  comparison_matrix_curated [] "anthropic" .MINIMAL
    ((List.lookup "anthropic" LEVEL_MAPPINGS).getD []) (by decide) (by decide)

/-- The concrete input of the C3 scenario: one lab fully covering the
persuasion domain and one lab with no risk domains, which would drive the
synthesizer toward an id starting with COV-PER. -/
def c3Input : Extractions :=
  [("A", { risk_domains := some [{ domain := some "persuasion", coverage := some "full" }] }),
   ("B", { risk_domains := some [] })]

/-- Claim C3: analyze_all deduplicates by gap_id keeping the first
occurrence in list order (the result has pairwise distinct ids, is a
subsequence, covers every input id, and every kept gap is the first
bearer of its id), and on the COV-PER scenario the output retains the
curated COV-PER-001 gap and contains no synthesized COV-PER-DYN gap. -/
theorem analyzeAll_dedup (gaps : List Gap) (g g2 : Gap) :
    ((dedupById gaps).map Gap.gap_id).Nodup ∧
    List.Sublist (dedupById gaps) gaps ∧
    (g ∈ gaps → ∃ g3 ∈ dedupById gaps, g3.gap_id = g.gap_id) ∧
    (g2 ∈ dedupById gaps → gaps.find? (fun x => x.gap_id == g2.gap_id) = some g2) ∧
    (∃ gc ∈ analyzeAllGaps c3Input, gc ∈ KNOWN_GAPS ∧ gc.gap_id = "COV-PER-001") ∧
    (∀ gd ∈ analyzeAllGaps c3Input, gd.gap_id ≠ "COV-PER-DYN") := by
  refine ⟨(dedupGo_nodup gaps []).1, dedupGo_sublist gaps [], ?_, ?_, ?_, ?_⟩
  · intro h
    rcases dedupGo_complete gaps [] g h with hin | h2
    · simp at hin
    · exact h2
  · intro h
    exact (dedupGo_first gaps [] g2 h).2
  · decide
  · decide

/-- Claim C3 witness: the dedup properties applied to a concrete list with
every id duplicated (the curated catalog listed twice). -/
theorem analyzeAll_dedup_witness :
    ((dedupById (KNOWN_GAPS ++ KNOWN_GAPS)).map Gap.gap_id).Nodup ∧
    List.Sublist (dedupById (KNOWN_GAPS ++ KNOWN_GAPS)) (KNOWN_GAPS ++ KNOWN_GAPS) ∧
    (∃ g3 ∈ dedupById (KNOWN_GAPS ++ KNOWN_GAPS), g3.gap_id = "TERM-002") ∧
    (∃ gc ∈ analyzeAllGaps c3Input, gc ∈ KNOWN_GAPS ∧ gc.gap_id = "COV-PER-001") := by
  obtain ⟨gt, hgt, hgtid⟩ : ∃ gt ∈ KNOWN_GAPS ++ KNOWN_GAPS, gt.gap_id = "TERM-002" := by
    decide
  have h := analyzeAll_dedup (KNOWN_GAPS ++ KNOWN_GAPS) gt gt
  refine ⟨h.1, h.2.1, ?_, h.2.2.2.2.1⟩
  obtain ⟨g3, hg3, hid⟩ := h.2.2.1 hgt
  exact ⟨g3, hg3, hid.trans hgtid⟩

/-- Claim C5 witness: the amended order theorem applied to a concrete
two-gap list. -/
theorem printGapReport_order_witness :
    (displaySortGaps KNOWN_GAPS).Perm KNOWN_GAPS ∧
    List.Pairwise
      (fun g1 g2 =>
        severityDisplayRank g1.severity < severityDisplayRank g2.severity ∨
          (g1.severity = g2.severity ∧ strLe g1.gap_id g2.gap_id = true))
      (displaySortGaps KNOWN_GAPS) :=
  printGapReport_order KNOWN_GAPS

end RSP
